import Mathlib

/-!
Shallow embedding of the queuectl-mongo background job queue
(worker.js, models/job.js, models/config.js, queuectl.js).

Jobs live in a MongoDB collection; here the collection is a list of job
records and each store operation is an atomic function from list to list.
Timestamps are naturals (milliseconds since the epoch, as produced by
Date.now), priorities are integers, and the numeric config values are
naturals.
-/

namespace Queuectl

/-- Job states, from the schema enum in models/job.js:
pending, processing, completed, failed, dead. -/
inductive JobState where
  | pending
  | processing
  | completed
  | failed
  | dead
deriving DecidableEq, Repr

/-- A job document, following jobSchema in models/job.js.  The mongoose
timestamps option supplies created_at and updated_at. -/
structure Job where
  id : String
  command : String
  state : JobState
  attempts : Nat
  max_retries : Nat
  run_at : Nat
  timeout : Nat
  output : String
  error : String
  priority : Int
  created_at : Nat
  updated_at : Nat
deriving DecidableEq, Repr

/-- Schema defaults from models/job.js applied when a job is enqueued with
only an id and a command (new Job(jobData) with the other paths absent):
state pending, attempts 0, max_retries 3, run_at now, timeout 60000,
output and error empty, priority 0. -/
def defaultJob (id command : String) (now : Nat) : Job :=
  { id := id
    command := command
    state := JobState.pending
    attempts := 0
    max_retries := 3
    run_at := now
    timeout := 60000
    output := ""
    error := ""
    priority := 0
    created_at := now
    updated_at := now }

/-- The systemConfig object of worker.js with its default values
(max_retries 3, backoff_base 2, job_timeout 30000 ms), possibly
overridden from the configs collection by loadConfig. -/
structure SystemConfig where
  max_retries : Nat
  backoff_base : Nat
  job_timeout : Nat
deriving DecidableEq, Repr

/-- The defaults hard-coded at the top of worker.js. -/
def defaultConfig : SystemConfig :=
  { max_retries := 3, backoff_base := 2, job_timeout := 30000 }

/-- JavaScript a || b on non-negative numbers: 0 is falsy, every other
number is truthy.  Used by worker.js for job.timeout and job.max_retries
fallbacks. -/
def jsOr (a b : Nat) : Nat :=
  if a = 0 then b else a

/-- Whitespace characters removed by the trim calls of worker.js (the
ASCII ones that occur in command output). -/
def isWs (c : Char) : Bool :=
  c == ' ' || c == '\t' || c == '\n' || c == '\r'

/-- String.prototype.trim of JavaScript: strip leading and trailing
whitespace. -/
def jsTrim (s : String) : String :=
  String.mk (((s.data.dropWhile isWs).reverse.dropWhile isWs).reverse)

/-- Eligibility filter of fetchAndLockJob: state equal to pending and
run_at less than or equal to the current time. -/
def eligible (now : Nat) (j : Job) : Bool :=
  decide (j.state = JobState.pending) && decide (j.run_at ≤ now)

/-- The sort specification of fetchAndLockJob, priority descending then
created_at ascending: job a sorts strictly before job b. -/
def claimBefore (a b : Job) : Prop :=
  b.priority < a.priority ∨ (a.priority = b.priority ∧ a.created_at < b.created_at)

instance (a b : Job) : Decidable (claimBefore a b) :=
  inferInstanceAs (Decidable (_ ∨ _))

/-- Select from a nonempty list the first document that is minimal for the
sort order, as the store does when it returns the first document of the
sorted eligible set. -/
def pickFrom (b : Job) : List Job → Job
  | [] => b
  | j :: rest => pickFrom (if claimBefore j b then j else b) rest

/-- The document findOneAndUpdate matches: the first eligible job under
the sort priority: -1, created_at: 1, before the update is applied. -/
def claimChoice (now : Nat) (db : List Job) : Option Job :=
  match db.filter (eligible now) with
  | [] => none
  | j :: rest => some (pickFrom j rest)

/-- The update document of fetchAndLockJob: set state to processing and
stamp updated_at with the current time. -/
def claimUpdate (now : Nat) (j : Job) : Job :=
  { j with state := JobState.processing, updated_at := now }

/-- fetchAndLockJob of worker.js: one atomic Mongoose findOneAndUpdate
that matches a pending job with run_at due and applies the processing
update to the stored document.  The source passes returnNewDocument: true
(a shell-only option; the Mongoose spelling is new: true), which Mongoose
and the Node driver silently drop, so the call resolves with the matched
document AS IT WAS BEFORE the update — still pending, with the old
updated_at — or null when nothing matches.  Returns that result together
with the new collection contents. -/
def fetchAndLockJob (now : Nat) (db : List Job) : Option Job × List Job :=
  match claimChoice now db with
  | none => (none, db)
  | some j =>
      (some j,
       db.map (fun x => if x.id = j.id then claimUpdate now j else x))

/-- Outcome of execPromise(job.command, timeout) in executeJob: either a
normal zero-exit completion carrying stdout and stderr, or a rejection
carrying the error message, whatever partial stdout and stderr were
captured, the killed flag, and whether the kill signal was SIGTERM. -/
inductive ExecOutcome where
  | ok (stdout stderr : String)
  | err (message stdout stderr : String) (killed sigterm : Bool)
deriving DecidableEq, Repr

/-- The timeout bound passed to execPromise: job.timeout or, when that is
falsy, systemConfig.job_timeout. -/
def effTimeout (cfg : SystemConfig) (j : Job) : Nat :=
  jsOr j.timeout cfg.job_timeout

/-- Whether an execution outcome is a rejection of execPromise, that is,
a failed attempt. -/
def isFailure : ExecOutcome → Bool
  | ExecOutcome.ok _ _ => false
  | ExecOutcome.err _ _ _ _ _ => true

/-- executeJob of worker.js, as the update it persists on the claimed job
document.  On success it sets state completed with trimmed stdout and
stderr; on failure it builds the error text (with a timeout annotation
when the process was killed by SIGTERM), increments attempts, and either
moves the job to dead (attempts reached job.max_retries or, when that is
falsy, the config ceiling) or reschedules it pending with
run_at = now + backoff_base ^ attempts seconds.  The mongoose timestamps
option refreshes updated_at on these updates. -/
def executeJob (cfg : SystemConfig) (now : Nat) (job : Job) (res : ExecOutcome) : Job :=
  match res with
  | ExecOutcome.ok stdout stderr =>
      { job with
          state := JobState.completed
          output := jsTrim stdout
          error := jsTrim stderr
          updated_at := now }
  | ExecOutcome.err message stdout stderr killed sigterm =>
      let jobError0 :=
        if stderr ≠ "" then message ++ "\n--- STDERR ---\n" ++ jsTrim stderr else message
      let jobOutput := if stdout ≠ "" then jsTrim stdout else ""
      let jobError :=
        if killed && sigterm then
          "Job TIMED OUT (exceeded " ++ toString (effTimeout cfg job) ++ "ms).\n" ++ jobError0
        else jobError0
      let newAttempts := job.attempts + 1
      let maxRetries := jsOr job.max_retries cfg.max_retries
      if newAttempts ≥ maxRetries then
        { job with
            state := JobState.dead
            attempts := newAttempts
            output := jobOutput
            error := jobError
            updated_at := now }
      else
        let delaySeconds := cfg.backoff_base ^ newAttempts
        let newRunAt := now + delaySeconds * 1000
        { job with
            state := JobState.pending
            attempts := newAttempts
            run_at := newRunAt
            output := jobOutput
            error := jobError
            updated_at := now }

/-- One claim-then-execute cycle of the worker loop on a given job: the
job is claimed at time tc and its outcome is resolved at time te. -/
def cycle (cfg : SystemConfig) (tc te : Nat) (res : ExecOutcome) (j : Job) : Job :=
  executeJob cfg te (claimUpdate tc j) res

/-- Replace the first document matching the filter, as a single-document
store update does. -/
def updateFirst (p : Job → Bool) (f : Job → Job) : List Job → List Job
  | [] => []
  | j :: rest => if p j then f j :: rest else j :: updateFirst p f rest

/-- The filter of the dlq retry command in queuectl.js: id equal to the
requested jobId and state dead. -/
def dlqFilter (jobId : String) (j : Job) : Bool :=
  decide (j.id = jobId) && decide (j.state = JobState.dead)

/-- The update document of the dlq retry command: set state pending,
attempts 0 and run_at now; the mongoose timestamps option refreshes
updated_at as well. -/
def dlqReset (now : Nat) (j : Job) : Job :=
  { j with
      state := JobState.pending
      attempts := 0
      run_at := now
      updated_at := now }

/-- The dlq retry command of queuectl.js: findOneAndUpdate on
id = jobId and state dead, setting state pending, attempts 0 and
run_at now.  The boolean reports whether a document matched; when none
does the command prints a not-found error and the collection is
untouched. -/
def dlqRequeue (now : Nat) (jobId : String) (db : List Job) : Bool × List Job :=
  if (db.find? (dlqFilter jobId)).isSome then
    (true, updateFirst (dlqFilter jobId) (dlqReset now) db)
  else
    (false, db)

/-- What one iteration of the while loop in startWorker does with the
settled result of fetchAndLockJob: run the job when one was returned,
sleep 2000 ms when null was returned, or let the rejection propagate out
of the loop when the store call failed (there is no try/catch inside the
loop). -/
inductive IterAction where
  | runJob (j : Job)
  | sleep2000
  | raiseError
deriving DecidableEq, Repr

/-- One iteration of the worker loop of startWorker, on the settled
result of its awaited fetchAndLockJob call.  Except.error stands for a
rejected store call, for example when the store is unreachable. -/
def workerIter (r : Except Unit (Option Job)) : IterAction :=
  match r with
  | Except.error _ => IterAction.raiseError
  | Except.ok (some j) => IterAction.runJob j
  | Except.ok none => IterAction.sleep2000

/-- Run the worker loop over a list of settled fetch results, counting the
iterations that complete.  An error aborts the loop at once: the
exception escapes startWorker, so the remaining results are never
consumed. -/
def runLoop (rs : List (Except Unit (Option Job))) (n : Nat) : Nat :=
  match rs with
  | [] => n
  | Except.error _ :: _ => n
  | Except.ok _ :: rest => runLoop rest (n + 1)

/-- A sequence of atomic claim attempts against the shared store, one per
time in the list.  Because each fetchAndLockJob call is a single atomic
conditional update, any concurrent execution of claim attempts by several
workers is equivalent to running them in some order, which this models. -/
def runClaims (ts : List Nat) (db : List Job) : List (Option Job) × List Job :=
  match ts with
  | [] => ([], db)
  | t :: ts' =>
      let p := fetchAndLockJob t db
      let q := runClaims ts' p.2
      (p.1 :: q.1, q.2)

/-- Concrete fixture: a low-priority job created first. -/
def exJobA : Job := defaultJob "a" "echo normal" 0

/-- Concrete fixture: a high-priority job created later, like the vip
example of the README. -/
def exJobB : Job := { defaultJob "b" "echo vip" 5 with priority := 10 }

/-- Concrete fixture: a collection holding both example jobs. -/
def exDb : List Job := [exJobA, exJobB]

/-- Concrete fixture: a job that is not eligible because it is already
completed. -/
def exJobDone : Job := { defaultJob "c" "echo done" 0 with state := JobState.completed }

/-- Concrete fixture: a collection with a single eligible job next to a
completed one. -/
def exDbOne : List Job := [exJobA, exJobDone]

/-- Concrete fixture: a failed execution outcome, a plain non-zero exit
with no captured output. -/
def exFail : ExecOutcome := ExecOutcome.err "Command failed: boom" "" "" false false

/-- Concrete fixture: a freshly enqueued job for the retry traces. -/
def exJobC : Job := defaultJob "c1" "boom" 0

/-- Concrete fixture: the job record after two failed cycles and one
successful cycle, starting from exJobC under the default config. -/
def exTwoFailThenOk : Job :=
  cycle defaultConfig 50 60 (ExecOutcome.ok "hello" "")
    (cycle defaultConfig 30 40 exFail
      (cycle defaultConfig 10 20 exFail exJobC))

/-- Concrete fixture: the job record after three failed cycles starting
from exJobC under the default config. -/
def exThreeFails : Job :=
  cycle defaultConfig 50 60 exFail
    (cycle defaultConfig 30 40 exFail
      (cycle defaultConfig 10 20 exFail exJobC))

/-- Concrete fixture: a dead job sitting in the DLQ. -/
def exDeadJob : Job :=
  { defaultJob "d" "boom" 0 with state := JobState.dead, attempts := 3, error := "failed" }

/-- Concrete fixture: a collection holding the dead job and an unrelated
pending job. -/
def exDbDead : List Job := [exJobA, exDeadJob]

/-- Concrete fixture: the global config of the README timeout test, where
job_timeout is set to 2000 ms. -/
def exConfig2000 : SystemConfig := { max_retries := 3, backoff_base := 2, job_timeout := 2000 }

/-- Concrete fixture: a config with backoff_base set to 0, as produced by
config set backoff_base 0 (parseInt gives 0 and loadConfig stores it). -/
def exConfigZeroBase : SystemConfig :=
  { max_retries := 3, backoff_base := 0, job_timeout := 30000 }

/-- Concrete fixture: a job enqueued with explicit zero overrides for
max_retries and timeout. -/
def exJobZero : Job := { defaultJob "z" "boom" 0 with max_retries := 0, timeout := 0 }

end Queuectl

namespace Queuectl

lemma claimBefore_irrefl (a : Job) : ¬ claimBefore a a := by
  unfold claimBefore
  omega

lemma claimBefore_trans {a b c : Job} (h1 : claimBefore a b) (h2 : claimBefore b c) :
    claimBefore a c := by
  unfold claimBefore at *
  omega

lemma not_claimBefore_trans {a b c : Job} (h1 : ¬ claimBefore a b) (h2 : ¬ claimBefore b c) :
    ¬ claimBefore a c := by
  unfold claimBefore at *
  omega

lemma pickFrom_cons (b j : Job) (rest : List Job) :
    pickFrom b (j :: rest) = pickFrom (if claimBefore j b then j else b) rest := rfl

lemma pickFrom_mem (b : Job) (l : List Job) : pickFrom b l ∈ b :: l := by
  induction l generalizing b with
  | nil => simp [pickFrom]
  | cons j rest ih =>
      rw [pickFrom_cons]
      by_cases h : claimBefore j b
      · rw [if_pos h]
        rcases List.mem_cons.mp (ih j) with h3 | h3
        · exact List.mem_cons_of_mem _ (by rw [h3]; exact List.mem_cons_self _ _)
        · exact List.mem_cons_of_mem _ (List.mem_cons_of_mem _ h3)
      · rw [if_neg h]
        rcases List.mem_cons.mp (ih b) with h3 | h3
        · rw [h3]; exact List.mem_cons_self _ _
        · exact List.mem_cons_of_mem _ (List.mem_cons_of_mem _ h3)

lemma pickFrom_min (b : Job) (l : List Job) :
    ∀ x ∈ b :: l, ¬ claimBefore x (pickFrom b l) := by
  induction l generalizing b with
  | nil =>
      intro x hx
      rcases List.mem_cons.mp hx with rfl | h
      · simpa [pickFrom] using claimBefore_irrefl x
      · cases h
  | cons j rest ih =>
      intro x hx
      rw [pickFrom_cons]
      by_cases h : claimBefore j b
      · rw [if_pos h]
        rcases List.mem_cons.mp hx with rfl | hx'
        · intro hb
          exact ih j j (List.mem_cons_self _ _) (claimBefore_trans h hb)
        · exact ih j x hx'
      · rw [if_neg h]
        rcases List.mem_cons.mp hx with heq | hx'
        · subst heq; exact ih _ _ (List.mem_cons_self _ _)
        · rcases List.mem_cons.mp hx' with heq | hx''
          · subst heq; exact not_claimBefore_trans h (ih _ _ (List.mem_cons_self _ _))
          · exact ih b x (List.mem_cons_of_mem _ hx'')

lemma eligible_iff {now : Nat} {j : Job} :
    eligible now j = true ↔ j.state = JobState.pending ∧ j.run_at ≤ now := by
  simp [eligible]

lemma claimChoice_spec {now : Nat} {db : List Job} {j : Job}
    (h : claimChoice now db = some j) :
    j ∈ db ∧ eligible now j = true ∧
      ∀ k ∈ db, eligible now k = true → ¬ claimBefore k j := by
  unfold claimChoice at h
  cases hf : db.filter (eligible now) with
  | nil => rw [hf] at h; cases h
  | cons a rest =>
      rw [hf] at h
      have hj : j = pickFrom a rest := (Option.some.injEq _ _).mp h.symm
      have hmem : j ∈ a :: rest := hj ▸ pickFrom_mem a rest
      have hmemf : j ∈ db.filter (eligible now) := by rw [hf]; exact hmem
      refine ⟨List.mem_of_mem_filter hmemf, List.of_mem_filter hmemf, ?_⟩
      intro k hk helig
      have hkf : k ∈ db.filter (eligible now) := List.mem_filter.mpr ⟨hk, helig⟩
      rw [hf] at hkf
      exact hj ▸ pickFrom_min a rest k hkf

lemma claimChoice_eq_none_iff {now : Nat} {db : List Job} :
    claimChoice now db = none ↔ db.filter (eligible now) = [] := by
  unfold claimChoice
  cases hf : db.filter (eligible now) with
  | nil => simp
  | cons a rest => simp

lemma claimChoice_none_iff {now : Nat} {db : List Job} :
    claimChoice now db = none ↔ ∀ j ∈ db, eligible now j = false := by
  rw [claimChoice_eq_none_iff, List.filter_eq_nil_iff]
  simp

lemma fetch_of_none {now : Nat} {db : List Job} (h : claimChoice now db = none) :
    fetchAndLockJob now db = (none, db) := by
  unfold fetchAndLockJob
  rw [h]

lemma filter_eq_single {p : Job → Bool} {db : List Job} {j0 : Job}
    (H1 : (db.map Job.id).Nodup) (H2 : j0 ∈ db) (hp : p j0 = true)
    (H4 : ∀ k ∈ db, k.id ≠ j0.id → p k = false) :
    db.filter p = [j0] := by
  induction db with
  | nil => cases H2
  | cons h tl ih =>
      rw [List.map_cons, List.nodup_cons] at H1
      rcases List.mem_cons.mp H2 with heq | hmem
      · subst heq
        rw [List.filter_cons_of_pos hp]
        have htl : tl.filter p = [] := by
          rw [List.filter_eq_nil_iff]
          intro k hk
          by_cases hid : k.id = j0.id
          · exact absurd (hid ▸ List.mem_map_of_mem Job.id hk) H1.1
          · simp [H4 k (List.mem_cons_of_mem _ hk) hid]
        rw [htl]
      · have hne : h.id ≠ j0.id := by
          intro he
          exact H1.1 (he ▸ List.mem_map_of_mem Job.id hmem)
        have hph : p h = false := H4 h (List.mem_cons_self _ _) hne
        rw [List.filter_cons_of_neg (by simp [hph])]
        exact ih H1.2 hmem (fun k hk hne' => H4 k (List.mem_cons_of_mem _ hk) hne')

lemma fetch_single {t1 : Nat} {db : List Job} {j0 : Job}
    (H1 : (db.map Job.id).Nodup) (H2 : j0 ∈ db) (H3 : eligible t1 j0 = true)
    (H4 : ∀ k ∈ db, k.id ≠ j0.id → eligible t1 k = false) :
    fetchAndLockJob t1 db =
      (some j0,
       db.map fun x => if x.id = j0.id then claimUpdate t1 j0 else x) := by
  have hf : db.filter (eligible t1) = [j0] := filter_eq_single H1 H2 H3 H4
  unfold fetchAndLockJob claimChoice
  rw [hf]
  simp [pickFrom]

lemma runClaims_all_none {ts : List Nat} {db : List Job}
    (H : ∀ t ∈ ts, ∀ k ∈ db, eligible t k = false) :
    runClaims ts db = (List.replicate ts.length none, db) := by
  induction ts with
  | nil => rfl
  | cons t ts' ih =>
      have hnone : claimChoice t db = none :=
        claimChoice_none_iff.mpr (H t (List.mem_cons_self _ _))
      have hfetch : fetchAndLockJob t db = (none, db) := fetch_of_none hnone
      have hrest := ih (fun t' ht' => H t' (List.mem_cons_of_mem _ ht'))
      simp only [runClaims, hfetch, hrest, List.length_cons, List.replicate_succ]

lemma executeJob_max_retries (cfg : SystemConfig) (now : Nat) (j : Job) (r : ExecOutcome) :
    (executeJob cfg now j r).max_retries = j.max_retries := by
  cases r with
  | ok so se => rfl
  | err m so se k sg =>
      simp only [executeJob]
      split <;> rfl

lemma executeJob_err_attempts (cfg : SystemConfig) (now : Nat) (j : Job)
    (m so se : String) (k sg : Bool) :
    (executeJob cfg now j (ExecOutcome.err m so se k sg)).attempts = j.attempts + 1 := by
  simp only [executeJob]
  split <;> rfl

lemma executeJob_ok_attempts (cfg : SystemConfig) (now : Nat) (j : Job) (so se : String) :
    (executeJob cfg now j (ExecOutcome.ok so se)).attempts = j.attempts := rfl

lemma executeJob_err_state (cfg : SystemConfig) (now : Nat) (j : Job)
    (m so se : String) (k sg : Bool) :
    (executeJob cfg now j (ExecOutcome.err m so se k sg)).state =
      (if j.attempts + 1 ≥ jsOr j.max_retries cfg.max_retries
       then JobState.dead else JobState.pending) := by
  simp only [executeJob]
  split <;> simp_all

lemma executeJob_err_run_at_retry (cfg : SystemConfig) (now : Nat) (j : Job)
    (m so se : String) (k sg : Bool)
    (h : ¬ j.attempts + 1 ≥ jsOr j.max_retries cfg.max_retries) :
    (executeJob cfg now j (ExecOutcome.err m so se k sg)).run_at =
      now + cfg.backoff_base ^ (j.attempts + 1) * 1000 := by
  simp only [executeJob]
  rw [if_neg h]

lemma claimUpdate_attempts (now : Nat) (j : Job) :
    (claimUpdate now j).attempts = j.attempts := rfl

lemma claimUpdate_max_retries (now : Nat) (j : Job) :
    (claimUpdate now j).max_retries = j.max_retries := rfl

lemma cycle_err_attempts (cfg : SystemConfig) (tc te : Nat) (j : Job)
    (m so se : String) (k sg : Bool) :
    (cycle cfg tc te (ExecOutcome.err m so se k sg) j).attempts = j.attempts + 1 :=
  executeJob_err_attempts cfg te (claimUpdate tc j) m so se k sg

lemma cycle_max_retries (cfg : SystemConfig) (tc te : Nat) (r : ExecOutcome) (j : Job) :
    (cycle cfg tc te r j).max_retries = j.max_retries :=
  executeJob_max_retries cfg te (claimUpdate tc j) r

lemma cycle_err_state (cfg : SystemConfig) (tc te : Nat) (j : Job)
    (m so se : String) (k sg : Bool) :
    (cycle cfg tc te (ExecOutcome.err m so se k sg) j).state =
      (if j.attempts + 1 ≥ jsOr j.max_retries cfg.max_retries
       then JobState.dead else JobState.pending) := by
  unfold cycle
  rw [executeJob_err_state, claimUpdate_attempts, claimUpdate_max_retries]

lemma mem_updateFirst_of_ne {p : Job → Bool} {f : Job → Job} {k : Job}
    (hk : p k = false) {db : List Job} (h : k ∈ db) :
    k ∈ updateFirst p f db := by
  induction db with
  | nil => cases h
  | cons a tl ih =>
      rcases List.mem_cons.mp h with heq | hmem
      · subst heq
        unfold updateFirst
        rw [if_neg (by simp [hk])]
        exact List.mem_cons_self _ _
      · unfold updateFirst
        by_cases ha : p a = true
        · rw [if_pos ha]
          exact List.mem_cons_of_mem _ hmem
        · rw [if_neg ha]
          exact List.mem_cons_of_mem _ (ih hmem)

lemma updateFirst_exists {p : Job → Bool} {f : Job → Job} {db : List Job}
    (h : ∃ j ∈ db, p j = true) :
    ∃ x ∈ db, p x = true ∧ f x ∈ updateFirst p f db := by
  induction db with
  | nil => rcases h with ⟨j, hj, _⟩; cases hj
  | cons a tl ih =>
      by_cases ha : p a = true
      · refine ⟨a, List.mem_cons_self _ _, ha, ?_⟩
        unfold updateFirst
        rw [if_pos ha]
        exact List.mem_cons_self _ _
      · rcases h with ⟨j, hj, hpj⟩
        rcases List.mem_cons.mp hj with heq | hmem
        · subst heq; exact absurd hpj ha
        · rcases ih ⟨j, hmem, hpj⟩ with ⟨x, hx, hpx, hfx⟩
          refine ⟨x, List.mem_cons_of_mem _ hx, hpx, ?_⟩
          unfold updateFirst
          rw [if_neg ha]
          exact List.mem_cons_of_mem _ hfx

/-- C2: the claim operation considers only jobs with state pending and
run_at at most now; among those it selects one with the highest priority,
breaking ties by earliest created_at; when no eligible job exists it
returns none rather than an error, and a successful call returns exactly
the chosen document. -/
theorem claim_selection_policy (now : Nat) (db : List Job) :
    (claimChoice now db = none ↔ ∀ j ∈ db, eligible now j = false) ∧
    (∀ j, claimChoice now db = some j →
      j ∈ db ∧ eligible now j = true ∧
      ∀ k ∈ db, eligible now k = true →
        k.priority ≤ j.priority ∧
          (k.priority = j.priority → j.created_at ≤ k.created_at)) ∧
    (fetchAndLockJob now db).1 = claimChoice now db := by
  refine ⟨claimChoice_none_iff, ?_, ?_⟩
  · intro j hj
    obtain ⟨hmem, helig, hmin⟩ := claimChoice_spec hj
    refine ⟨hmem, helig, ?_⟩
    intro k hk hke
    have hnb := hmin k hk hke
    unfold claimBefore at hnb
    exact ⟨by omega, fun he => by omega⟩
  · unfold fetchAndLockJob
    cases claimChoice now db <;> simp

/-- Witness for C2 on the vip example: among two eligible jobs the claim
picks the one with priority 10. -/
theorem claim_selection_policy_witness :
    exJobB ∈ exDb ∧ eligible 10 exJobB = true ∧
      ∀ k ∈ exDb, eligible 10 k = true →
        k.priority ≤ exJobB.priority ∧
          (k.priority = exJobB.priority → exJobB.created_at ≤ k.created_at) :=
  (claim_selection_policy 10 exDb).2.1 exJobB (by rfl)

/-- C4: failing-input evaluation for the claim return value.  Mongoose
and the Node driver ignore the shell-only returnNewDocument option (the
Mongoose spelling is new: true), so a successful claim resolves with the
pre-update document: at time 10 against the vip store the returned record
still reads pending with updated_at 5, not processing with updated_at 10,
even though the stored document was atomically moved to processing. -/
theorem claim_returns_stale_snapshot :
    (fetchAndLockJob 10 exDb).1 = some exJobB ∧
    exJobB.state = JobState.pending ∧
    exJobB.state ≠ JobState.processing ∧
    exJobB.updated_at = 5 ∧
    exJobB.updated_at ≠ 10 ∧
    (claimUpdate 10 exJobB).state = JobState.processing ∧
    claimUpdate 10 exJobB ∈ (fetchAndLockJob 10 exDb).2 := by
  decide

/-- C9: a zero-exit execution is resolved as a success even when stderr
is non-empty; stdout and stderr are stored trimmed in output and error,
attempts is untouched, and the job never takes the retry or DLQ path. -/
theorem success_despite_stderr (cfg : SystemConfig) (now : Nat) (job : Job)
    (sout serr : String) :
    (executeJob cfg now job (ExecOutcome.ok sout serr)).state = JobState.completed ∧
    (executeJob cfg now job (ExecOutcome.ok sout serr)).output = jsTrim sout ∧
    (executeJob cfg now job (ExecOutcome.ok sout serr)).error = jsTrim serr ∧
    (executeJob cfg now job (ExecOutcome.ok sout serr)).attempts = job.attempts ∧
    (executeJob cfg now job (ExecOutcome.ok sout serr)).state ≠ JobState.dead ∧
    (executeJob cfg now job (ExecOutcome.ok sout serr)).state ≠ JobState.pending := by
  refine ⟨rfl, rfl, rfl, rfl, ?_, ?_⟩
  · show JobState.completed ≠ JobState.dead
    decide
  · show JobState.completed ≠ JobState.pending
    decide

/-- C3: claim attempts are single atomic conditional updates, so over any
sequence of attempts against a store whose only eligible job is j0,
exactly the first attempt succeeds, it moves j0 to processing, and every
later attempt observes nothing claimable: at most one worker ever holds
the job. -/
theorem claim_at_most_one_success (t1 : Nat) (ts : List Nat) (db : List Job) (j0 : Job)
    (H1 : (db.map Job.id).Nodup) (H2 : j0 ∈ db) (H3 : eligible t1 j0 = true)
    (H4 : ∀ k ∈ db, k.id ≠ j0.id → ∀ t ∈ t1 :: ts, eligible t k = false) :
    (runClaims (t1 :: ts) db).1 = some j0 :: List.replicate ts.length none ∧
    claimUpdate t1 j0 ∈ (runClaims (t1 :: ts) db).2 ∧
    (claimUpdate t1 j0).state = JobState.processing := by
  have hfetch := fetch_single H1 H2 H3
      (fun k hk hne => H4 k hk hne t1 (List.mem_cons_self _ _))
  have hrest : ∀ t ∈ ts,
      ∀ k ∈ (db.map fun x => if x.id = j0.id then claimUpdate t1 j0 else x),
        eligible t k = false := by
    intro t ht k hk
    rcases List.mem_map.mp hk with ⟨x, hx, hxe⟩
    by_cases hid : x.id = j0.id
    · rw [← hxe, if_pos hid]
      simp [eligible, claimUpdate]
    · rw [← hxe, if_neg hid]
      exact H4 x hx hid t (List.mem_cons_of_mem _ ht)
  have hr := runClaims_all_none hrest
  refine ⟨?_, ?_, rfl⟩
  · simp [runClaims, hfetch, hr]
  · have hsnd : (runClaims (t1 :: ts) db).2 =
        db.map fun x => if x.id = j0.id then claimUpdate t1 j0 else x := by
      simp [runClaims, hfetch, hr]
    rw [hsnd]
    have hm := List.mem_map_of_mem
      (fun x => if x.id = j0.id then claimUpdate t1 j0 else x) H2
    simpa using hm

/-- Witness for C3: three claim attempts at times 10, 11, 12 against a
store holding one eligible job and one completed job; only the first
attempt succeeds and the store holds the processing record afterwards. -/
theorem claim_at_most_one_success_witness :
    (runClaims [10, 11, 12] exDbOne).1 = some exJobA :: List.replicate 2 none ∧
    claimUpdate 10 exJobA ∈ (runClaims [10, 11, 12] exDbOne).2 ∧
    (claimUpdate 10 exJobA).state = JobState.processing :=
  claim_at_most_one_success 10 [11, 12] exDbOne exJobA (by decide) (by decide)
    (by decide) (by decide)

/-- Counterexample for C5 as stated: with backoff_base configured to 0
(config set backoff_base 0 parses to 0), the first retry of a fresh job
failing at time 100 gets run_at = 100 + 0 ^ 1 * 1000 = 100, which is not
strictly greater than the timestamp of the failed attempt. -/
theorem retry_backoff_zero_base_counterexample :
    (executeJob exConfigZeroBase 100 exJobC
        (ExecOutcome.err "boom" "" "" false false)).state = JobState.pending ∧
    (executeJob exConfigZeroBase 100 exJobC
        (ExecOutcome.err "boom" "" "" false false)).run_at = 100 ∧
    ¬ (100 < (executeJob exConfigZeroBase 100 exJobC
        (ExecOutcome.err "boom" "" "" false false)).run_at) := by
  decide

/-- C5 (amended): when a failed attempt is retried, the new run_at equals
the failure time plus backoff_base raised to the new attempt count, in
seconds; that run_at lies strictly after the failure time whenever the
configured backoff base is at least one (the default is 2), while a zero
base makes it equal to the failure time. -/
theorem retry_backoff_formula (cfg : SystemConfig) (now : Nat) (job : Job)
    (m so se : String) (k sg : Bool)
    (hretry : job.attempts + 1 < jsOr job.max_retries cfg.max_retries) :
    (executeJob cfg now job (ExecOutcome.err m so se k sg)).state = JobState.pending ∧
    (executeJob cfg now job (ExecOutcome.err m so se k sg)).attempts = job.attempts + 1 ∧
    (executeJob cfg now job (ExecOutcome.err m so se k sg)).run_at =
      now + cfg.backoff_base ^ (job.attempts + 1) * 1000 ∧
    (1 ≤ cfg.backoff_base →
      now < (executeJob cfg now job (ExecOutcome.err m so se k sg)).run_at) := by
  have hne : ¬ job.attempts + 1 ≥ jsOr job.max_retries cfg.max_retries := by omega
  have hra := executeJob_err_run_at_retry cfg now job m so se k sg hne
  refine ⟨?_, executeJob_err_attempts cfg now job m so se k sg, hra, ?_⟩
  · rw [executeJob_err_state, if_neg hne]
  · intro hb
    have hp : 1 ≤ cfg.backoff_base ^ (job.attempts + 1) := Nat.one_le_pow _ _ hb
    have hm : 1 * 1000 ≤ cfg.backoff_base ^ (job.attempts + 1) * 1000 :=
      Nat.mul_le_mul_right 1000 hp
    rw [hra]
    omega

/-- Witness for C5: first failure of a fresh job under the default
config; the retry is scheduled 2 seconds after the failure. -/
theorem retry_backoff_formula_witness :
    exJobC.attempts + 1 < jsOr exJobC.max_retries defaultConfig.max_retries ∧
    ((executeJob defaultConfig 100 exJobC
        (ExecOutcome.err "boom" "" "" false false)).state = JobState.pending ∧
     (executeJob defaultConfig 100 exJobC
        (ExecOutcome.err "boom" "" "" false false)).attempts = exJobC.attempts + 1 ∧
     (executeJob defaultConfig 100 exJobC
        (ExecOutcome.err "boom" "" "" false false)).run_at =
       100 + defaultConfig.backoff_base ^ (exJobC.attempts + 1) * 1000 ∧
     (1 ≤ defaultConfig.backoff_base →
       100 < (executeJob defaultConfig 100 exJobC
         (ExecOutcome.err "boom" "" "" false false)).run_at)) :=
  ⟨by decide,
   retry_backoff_formula defaultConfig 100 exJobC "boom" "" "" false false (by decide)⟩

/-- C10: a per-job override explicitly set to 0 is falsy and therefore
ignored: the effective timeout is the global config job_timeout, the
effective retry ceiling is the global config max_retries, and with the
default ceiling 3 a first failure schedules a retry instead of moving
the job to dead. -/
theorem zero_overrides_fall_back (cfg : SystemConfig) (j : Job)
    (hmr : j.max_retries = 0) (hto : j.timeout = 0)
    (hcfg : cfg.max_retries = 3) (hatt : j.attempts = 0) :
    effTimeout cfg j = cfg.job_timeout ∧
    jsOr j.max_retries cfg.max_retries = cfg.max_retries ∧
    (∀ (now : Nat) (m so se : String) (k sg : Bool),
      (executeJob cfg now j (ExecOutcome.err m so se k sg)).state = JobState.pending) := by
  refine ⟨?_, ?_, ?_⟩
  · unfold effTimeout jsOr
    rw [hto]
    simp
  · unfold jsOr
    rw [hmr]
    simp
  · intro now m so se k sg
    have hceil : jsOr j.max_retries cfg.max_retries = 3 := by
      unfold jsOr
      rw [hmr, hcfg]
      simp
    have hlt : ¬ j.attempts + 1 ≥ jsOr j.max_retries cfg.max_retries := by
      rw [hceil, hatt]
      omega
    rw [executeJob_err_state, if_neg hlt]

/-- Witness for C10: a job enqueued with max_retries 0 and timeout 0
under the default config. -/
theorem zero_overrides_fall_back_witness :
    effTimeout defaultConfig exJobZero = defaultConfig.job_timeout ∧
    jsOr exJobZero.max_retries defaultConfig.max_retries = defaultConfig.max_retries ∧
    (∀ (now : Nat) (m so se : String) (k sg : Bool),
      (executeJob defaultConfig now exJobZero
        (ExecOutcome.err m so se k sg)).state = JobState.pending) :=
  zero_overrides_fall_back defaultConfig exJobZero (by decide) (by decide)
    (by decide) (by decide)

/-- C8: the dlq retry operation matches exactly a job with the requested
id in state dead; when nothing matches it reports not-found and leaves
the collection unchanged; when the dead job exists it is transitioned to
pending with attempts 0 and run_at now, making it eligible immediately,
and every non-matching job is untouched. -/
theorem dlq_requeue_behavior (now : Nat) (jobId : String) (db : List Job) :
    (∀ j : Job, dlqFilter jobId j = true ↔ (j.id = jobId ∧ j.state = JobState.dead)) ∧
    ((∀ j ∈ db, dlqFilter jobId j = false) → dlqRequeue now jobId db = (false, db)) ∧
    (∀ j ∈ db, dlqFilter jobId j = true →
      (dlqRequeue now jobId db).1 = true ∧
      (∃ x ∈ db, dlqFilter jobId x = true ∧
        dlqReset now x ∈ (dlqRequeue now jobId db).2 ∧
        (dlqReset now x).state = JobState.pending ∧
        (dlqReset now x).attempts = 0 ∧
        (dlqReset now x).run_at = now ∧
        eligible now (dlqReset now x) = true) ∧
      (∀ k ∈ db, dlqFilter jobId k = false → k ∈ (dlqRequeue now jobId db).2)) := by
  refine ⟨?_, ?_, ?_⟩
  · intro j
    simp [dlqFilter]
  · intro hnone
    have hfind : db.find? (dlqFilter jobId) = none :=
      List.find?_eq_none.mpr (fun x hx => by simp [hnone x hx])
    unfold dlqRequeue
    rw [hfind]
    simp
  · intro j hj hpj
    have hfind : (db.find? (dlqFilter jobId)).isSome := by
      rw [List.find?_isSome]
      exact ⟨j, hj, hpj⟩
    have hreq : dlqRequeue now jobId db =
        (true, updateFirst (dlqFilter jobId) (dlqReset now) db) := by
      unfold dlqRequeue
      rw [if_pos hfind]
    refine ⟨by rw [hreq], ?_, ?_⟩
    · rcases updateFirst_exists ⟨j, hj, hpj⟩ with ⟨x, hx, hpx, hfx⟩
      refine ⟨x, hx, hpx, ?_, rfl, rfl, rfl, ?_⟩
      · rw [hreq]
        exact hfx
      · simp [eligible, dlqReset]
    · intro k hk hpk
      rw [hreq]
      exact mem_updateFirst_of_ne hpk hk

/-- Witness for C8: requeueing the concrete dead job d from a collection
that also holds an unrelated pending job. -/
theorem dlq_requeue_behavior_witness :
    (dlqRequeue 77 "d" exDbDead).1 = true ∧
    (∃ x ∈ exDbDead, dlqFilter "d" x = true ∧
      dlqReset 77 x ∈ (dlqRequeue 77 "d" exDbDead).2 ∧
      (dlqReset 77 x).state = JobState.pending ∧
      (dlqReset 77 x).attempts = 0 ∧
      (dlqReset 77 x).run_at = 77 ∧
      eligible 77 (dlqReset 77 x) = true) ∧
    (∀ k ∈ exDbDead, dlqFilter "d" k = false → k ∈ (dlqRequeue 77 "d" exDbDead).2) :=
  (dlq_requeue_behavior 77 "d" exDbDead).2.2 exDeadJob (by decide) (by decide)

/-- C1 (amended): attempts is incremented exactly once per failed
execution attempt and left unchanged by a successful one; hence with an
effective retry ceiling of 3, three failures end in dead with attempts 3,
while two failures followed by a success end in completed with
attempts 2 and the trimmed stdout as non-empty output. -/
theorem attempts_progression (cfg : SystemConfig) :
    (∀ (j : Job) (now : Nat) (m so se : String) (k sg : Bool),
      (executeJob cfg now j (ExecOutcome.err m so se k sg)).attempts = j.attempts + 1) ∧
    (∀ (j : Job) (now : Nat) (so se : String),
      (executeJob cfg now j (ExecOutcome.ok so se)).attempts = j.attempts) ∧
    (∀ j : Job, j.attempts = 0 → jsOr j.max_retries cfg.max_retries = 3 →
      ∀ (t1 t1' t2 t2' t3 t3' : Nat) (r1 r2 r3 : ExecOutcome),
        isFailure r1 = true → isFailure r2 = true → isFailure r3 = true →
        (cycle cfg t3 t3' r3 (cycle cfg t2 t2' r2 (cycle cfg t1 t1' r1 j))).state =
            JobState.dead ∧
        (cycle cfg t3 t3' r3 (cycle cfg t2 t2' r2 (cycle cfg t1 t1' r1 j))).attempts = 3) ∧
    (∀ j : Job, j.attempts = 0 → jsOr j.max_retries cfg.max_retries = 3 →
      ∀ (t1 t1' t2 t2' t3 t3' : Nat) (r1 r2 : ExecOutcome) (so se : String),
        isFailure r1 = true → isFailure r2 = true → jsTrim so ≠ "" →
        (cycle cfg t3 t3' (ExecOutcome.ok so se)
            (cycle cfg t2 t2' r2 (cycle cfg t1 t1' r1 j))).state = JobState.completed ∧
        (cycle cfg t3 t3' (ExecOutcome.ok so se)
            (cycle cfg t2 t2' r2 (cycle cfg t1 t1' r1 j))).attempts = 2 ∧
        (cycle cfg t3 t3' (ExecOutcome.ok so se)
            (cycle cfg t2 t2' r2 (cycle cfg t1 t1' r1 j))).output = jsTrim so ∧
        (cycle cfg t3 t3' (ExecOutcome.ok so se)
            (cycle cfg t2 t2' r2 (cycle cfg t1 t1' r1 j))).output ≠ "") := by
  refine ⟨fun j now m so se k sg => executeJob_err_attempts cfg now j m so se k sg,
    fun j now so se => executeJob_ok_attempts cfg now j so se, ?_, ?_⟩
  · intro j h0 hmr t1 t1' t2 t2' t3 t3' r1 r2 r3 hf1 hf2 hf3
    cases r1 with
    | ok so se => simp [isFailure] at hf1
    | err m1 o1 e1 k1 g1 =>
    cases r2 with
    | ok so se => simp [isFailure] at hf2
    | err m2 o2 e2 k2 g2 =>
    cases r3 with
    | ok so se => simp [isFailure] at hf3
    | err m3 o3 e3 k3 g3 =>
    have ha1 : (cycle cfg t1 t1' (ExecOutcome.err m1 o1 e1 k1 g1) j).attempts = 1 := by
      rw [cycle_err_attempts, h0]
    have hm1 : (cycle cfg t1 t1' (ExecOutcome.err m1 o1 e1 k1 g1) j).max_retries =
        j.max_retries := cycle_max_retries cfg t1 t1' _ j
    have ha2 : (cycle cfg t2 t2' (ExecOutcome.err m2 o2 e2 k2 g2)
        (cycle cfg t1 t1' (ExecOutcome.err m1 o1 e1 k1 g1) j)).attempts = 2 := by
      rw [cycle_err_attempts, ha1]
    have hm2 : (cycle cfg t2 t2' (ExecOutcome.err m2 o2 e2 k2 g2)
        (cycle cfg t1 t1' (ExecOutcome.err m1 o1 e1 k1 g1) j)).max_retries =
        j.max_retries := by
      rw [cycle_max_retries, hm1]
    constructor
    · rw [cycle_err_state, ha2, hm2, hmr]
      rfl
    · rw [cycle_err_attempts, ha2]
  · intro j h0 hmr t1 t1' t2 t2' t3 t3' r1 r2 so se hf1 hf2 hso
    cases r1 with
    | ok so' se' => simp [isFailure] at hf1
    | err m1 o1 e1 k1 g1 =>
    cases r2 with
    | ok so' se' => simp [isFailure] at hf2
    | err m2 o2 e2 k2 g2 =>
    have ha1 : (cycle cfg t1 t1' (ExecOutcome.err m1 o1 e1 k1 g1) j).attempts = 1 := by
      rw [cycle_err_attempts, h0]
    have ha2 : (cycle cfg t2 t2' (ExecOutcome.err m2 o2 e2 k2 g2)
        (cycle cfg t1 t1' (ExecOutcome.err m1 o1 e1 k1 g1) j)).attempts = 2 := by
      rw [cycle_err_attempts, ha1]
    refine ⟨rfl, ?_, rfl, ?_⟩
    · show (cycle cfg t2 t2' (ExecOutcome.err m2 o2 e2 k2 g2)
        (cycle cfg t1 t1' (ExecOutcome.err m1 o1 e1 k1 g1) j)).attempts = 2
      exact ha2
    · show jsTrim so ≠ ""
      exact hso

/-- Counterexample for C1 as stated: two failures then a success leave
attempts at 2, not 3, because the success branch of executeJob never
writes attempts. -/
theorem attempts_progression_counterexample :
    exTwoFailThenOk.state = JobState.completed ∧
    exTwoFailThenOk.output ≠ "" ∧
    exTwoFailThenOk.attempts = 2 ∧
    exTwoFailThenOk.attempts ≠ 3 := by
  decide

/-- Witness for C1 (amended): the concrete three-failure trace reaches
dead with attempts 3. -/
theorem attempts_progression_witness :
    exJobC.attempts = 0 ∧
    jsOr exJobC.max_retries defaultConfig.max_retries = 3 ∧
    isFailure exFail = true ∧
    ((cycle defaultConfig 50 60 exFail
        (cycle defaultConfig 30 40 exFail
          (cycle defaultConfig 10 20 exFail exJobC))).state = JobState.dead ∧
     (cycle defaultConfig 50 60 exFail
        (cycle defaultConfig 30 40 exFail
          (cycle defaultConfig 10 20 exFail exJobC))).attempts = 3) :=
  ⟨rfl, rfl, rfl,
   (attempts_progression defaultConfig).2.2.1 exJobC rfl rfl
     10 20 30 40 50 60 exFail exFail exFail rfl rfl rfl⟩

/-- C6: failing-input evaluation for the schema-default timeout.  A job
enqueued without an explicit timeout carries the schema default 60000 ms,
which is truthy, so the global config job_timeout (the README test value
2000, default 30000) never bounds its execution. -/
theorem schema_timeout_shadows_config :
    (defaultJob "timeout" "sleep 3" 0).timeout = 60000 ∧
    effTimeout exConfig2000 (defaultJob "timeout" "sleep 3" 0) = 60000 ∧
    exConfig2000.job_timeout = 2000 ∧
    effTimeout defaultConfig (defaultJob "timeout" "sleep 3" 0) = 60000 ∧
    defaultConfig.job_timeout = 30000 ∧
    (60000 ≠ 2000 ∧ 60000 ≠ 30000) := by
  decide

/-- Counterexample for C7 as stated: a rejected store call is not handled
like an empty poll; the iteration neither sleeps nor runs a job, and the
loop stops counting iterations at the error. -/
theorem store_error_counterexample :
    workerIter (Except.error ()) = IterAction.raiseError ∧
    workerIter (Except.ok none) = IterAction.sleep2000 ∧
    IterAction.raiseError ≠ IterAction.sleep2000 ∧
    runLoop [Except.error ()] 0 = 0 ∧
    runLoop [Except.ok none] 0 = 1 := by
  refine ⟨rfl, rfl, by decide, rfl, rfl⟩

/-- C7 (amended): a store failure during a claim attempt is uncaught
inside the worker loop: it aborts the loop at that iteration without
executing or updating any job, while a null claim result makes the loop
sleep and continue. -/
theorem store_error_aborts_loop :
    (∀ e : Unit, workerIter (Except.error e) = IterAction.raiseError) ∧
    (∀ (e : Unit) (rs : List (Except Unit (Option Job))) (n : Nat),
      runLoop (Except.error e :: rs) n = n) ∧
    (∀ (rs : List (Except Unit (Option Job))) (n : Nat),
      runLoop (Except.ok none :: rs) n = runLoop rs (n + 1)) :=
  ⟨fun _ => rfl, fun _ _ _ => rfl, fun _ _ => rfl⟩

end Queuectl
